import Mathlib

/-!
Verification development for the clawtan CLI (src/clawtan/cli.py): a shallow
embedding of the turn-synchronization and briefing engine — state extraction
(`_my_status`, `_all_player_resources`), action grouping (`_print_actions`),
delta reporting (`_print_history`, `_print_roll_result`) and the `cmd_wait`
poll loop — together with theorems settling the specification's claims.

Output is modelled as the list of strings passed to `print` calls, in order
(each element one `print` call; embedded newlines kept). Python dictionaries
decoded from JSON are modelled as association lists with first-match lookup
(JSON object keys are unique). Python booleans are integers (`True == 1`), so
the flat `player_state` mapping, whose protocol values are integers and
booleans, is modelled as `List (String × Int)`; truthiness of such a value is
`≠ 0`.
-/

namespace Clawtan

/-- A JSON value as decoded by Python's `json.loads`: `None`, `bool`, `int`,
`str` or `list` (the protocol shapes the CLI consumes use no nested objects at
the places the embedded functions look). -/
inductive JVal where
  | null : JVal
  | bool : Bool → JVal
  | int : Int → JVal
  | str : String → JVal
  | arr : List JVal → JVal
deriving Repr

mutual

/-- Structural equality of JSON values, mirroring Python `==` on decoded
values of these shapes. -/
def JVal.beq : JVal → JVal → Bool
  | .null, .null => true
  | .bool a, .bool b => a == b
  | .int a, .int b => a == b
  | .str a, .str b => a == b
  | .arr xs, .arr ys => JVal.beqList xs ys
  | _, _ => false

/-- Elementwise equality of JSON arrays. -/
def JVal.beqList : List JVal → List JVal → Bool
  | [], [] => true
  | a :: as, b :: bs => JVal.beq a b && JVal.beqList as bs
  | _, _ => false

end

instance : BEq JVal := ⟨JVal.beq⟩

mutual

theorem JVal.beq_refl : ∀ (v : JVal), JVal.beq v v = true
  | .null => rfl
  | .bool b => by simp [JVal.beq]
  | .int n => by simp [JVal.beq]
  | .str s => by simp [JVal.beq]
  | .arr xs => by
    simp only [JVal.beq]
    exact JVal.beqList_refl xs

theorem JVal.beqList_refl : ∀ (xs : List JVal), JVal.beqList xs xs = true
  | [] => rfl
  | a :: as => by
    simp only [JVal.beqList, Bool.and_eq_true]
    exact ⟨JVal.beq_refl a, JVal.beqList_refl as⟩

end

mutual

theorem JVal.eq_of_beq : ∀ {a b : JVal}, JVal.beq a b = true → a = b
  | .null, .null, _ => rfl
  | .bool _, .bool _, h => by simpa [JVal.beq] using h
  | .int _, .int _, h => by simpa [JVal.beq] using h
  | .str _, .str _, h => by simpa [JVal.beq] using h
  | .arr xs, .arr ys, h => by
    simp only [JVal.beq] at h
    have hxy : xs = ys := JVal.eqList_of_beqList h
    exact hxy ▸ rfl

theorem JVal.eqList_of_beqList : ∀ {xs ys : List JVal}, JVal.beqList xs ys = true → xs = ys
  | [], [], _ => rfl
  | a :: as, b :: bs, h => by
    simp only [JVal.beqList, Bool.and_eq_true] at h
    have h1 : a = b := JVal.eq_of_beq h.1
    have h2 : as = bs := JVal.eqList_of_beqList h.2
    rw [h1, h2]

end

instance : DecidableEq JVal := fun a b =>
  if h : JVal.beq a b = true then
    .isTrue (JVal.eq_of_beq h)
  else
    .isFalse (fun he => h (he ▸ JVal.beq_refl a))

/-- Python truthiness of a decoded JSON value: `None`, `False`, `0`, the empty
string and the empty list are falsy, everything else truthy. -/
def pyTruthy : JVal → Bool
  | .null => false
  | .bool b => b
  | .int n => n != 0
  | .str s => s != ""
  | .arr xs => !xs.isEmpty

/-- `d.get(k, default)` on a Python dict with string keys and integer (or
boolean, i.e. 0/1) values, modelled as first-match lookup in an association
list. -/
def dictGet (d : List (String × Int)) (k : String) (dflt : Int) : Int :=
  match d.find? (fun kv => kv.1 == k) with
  | some kv => kv.2
  | none => dflt

-- ---------------------------------------------------------------------------
-- Constants (cli.py lines 37-44)
-- ---------------------------------------------------------------------------

def RESOURCES : List String := ["DRIFTWOOD", "CORAL", "SHRIMP", "KELP", "PEARL"]

def DEV_CARDS : List String :=
  ["LOBSTER_GUARD", "BOUNTIFUL_HARVEST", "TIDAL_MONOPOLY", "CURRENT_BUILDING", "TREASURE_CHEST"]

-- ---------------------------------------------------------------------------
-- Game state (the fields of the full state document the embedded functions use)
-- ---------------------------------------------------------------------------

/-- The fields of the full game-state document that the embedded functions
read: `colors`, the flat `player_state` mapping, `action_records` and
`current_playable_actions` (records and legal actions are raw JSON values, as
the code defends against malformed entries with isinstance checks). -/
structure GameState where
  colors : List String
  player_state : List (String × Int)
  action_records : List JVal
  current_playable_actions : List JVal

/-- `_find_idx`: `colors.index(color)`, or `-1` when absent (cli.py 144-148). -/
def find_idx : List String → String → Int
  | [], _ => -1
  | c :: cs, color =>
    if c = color then 0
    else
      let r := find_idx cs color
      if r < 0 then -1 else r + 1

/-- The derived player status `_my_status` builds (cli.py 172-191). -/
structure PlayerStatus where
  color : String
  vp : Int
  resources : List (String × Int)
  total_resources : Int
  dev_cards : List (String × Int)
  buildings : List (String × Int)
  longest_road : Bool
  largest_army : Bool
  road_length : Int
  knights : Int
  has_rolled : Bool
  played_dev : Bool
deriving Repr, DecidableEq

/-- `_my_status` (cli.py 151-191): project the flat `player_state` mapping
onto the player at `color`'s index; `none` when the color is not a
participant. Missing keys default to 0 / False via `dict.get`. -/
def my_status (state : GameState) (color : String) : Option PlayerStatus :=
  let ps := state.player_state
  let colors := state.colors
  let idx := find_idx colors color
  if idx < 0 then none
  else
    let p := "P" ++ toString idx.toNat ++ "_"
    let resources := RESOURCES.map (fun r => (r, dictGet ps (p ++ r ++ "_IN_HAND") 0))
    let total := (resources.map (·.2)).sum
    let dev := (DEV_CARDS.map (fun d => (d, dictGet ps (p ++ d ++ "_IN_HAND") 0))).filter
      (fun kv => kv.2 > 0)
    some
      { color := color
        vp := dictGet ps (p ++ "TREASURE_CHESTS") 0
        resources := resources
        total_resources := total
        dev_cards := dev
        buildings :=
          [("TIDE_POOLS", dictGet ps (p ++ "TIDE_POOLS_AVAILABLE") 0),
           ("REEFS", dictGet ps (p ++ "REEFS_AVAILABLE") 0),
           ("CURRENTS", dictGet ps (p ++ "CURRENTS_AVAILABLE") 0)]
        longest_road := dictGet ps (p ++ "HAS_ROAD") 0 != 0
        largest_army := dictGet ps (p ++ "HAS_ARMY") 0 != 0
        road_length := dictGet ps (p ++ "LONGEST_ROAD_LENGTH") 0
        knights := dictGet ps (p ++ "PLAYED_LOBSTER_GUARD") 0
        has_rolled := dictGet ps (p ++ "HAS_ROLLED") 0 != 0
        played_dev := dictGet ps (p ++ "HAS_PLAYED_DEVELOPMENT_CARD_IN_TURN") 0 != 0 }

/-- `_all_player_resources` (cli.py 194-202): per-color resource counts for
every player, in board order. -/
def all_player_resources (state : GameState) : List (String × List (String × Int)) :=
  (state.colors.enum).map (fun ic =>
    let p := "P" ++ toString ic.1 ++ "_"
    (ic.2, RESOURCES.map (fun r => (r, dictGet state.player_state (p ++ r ++ "_IN_HAND") 0))))

-- ---------------------------------------------------------------------------
-- String rendering: json.dumps(v, separators=(",", ":")) and Python str()/repr()
-- ---------------------------------------------------------------------------

/-- One hexadecimal digit, lowercase (as CPython emits in escapes). -/
def hexDigit (n : Nat) : Char :=
  if n < 10 then Char.ofNat (48 + n) else Char.ofNat (87 + n)

/-- Four lowercase hex digits, for a JSON \u escape. -/
def hex4 (n : Nat) : String :=
  String.mk [hexDigit (n / 4096 % 16), hexDigit (n / 256 % 16), hexDigit (n / 16 % 16),
    hexDigit (n % 16)]

/-- How `json.dumps` (default `ensure_ascii=True`) escapes one character of a
string: the seven short escapes, \uXXXX for other characters outside
0x20..0x7e (a surrogate pair above 0xFFFF), and the character itself
otherwise. -/
def jsonEscapeChar (c : Char) : String :=
  if c = Char.ofNat 34 then "\\\""
  else if c = Char.ofNat 92 then "\\\\"
  else if c = Char.ofNat 10 then "\\n"
  else if c = Char.ofNat 13 then "\\r"
  else if c = Char.ofNat 9 then "\\t"
  else if c = Char.ofNat 8 then "\\b"
  else if c = Char.ofNat 12 then "\\f"
  else if c.toNat < 32 ∨ 126 < c.toNat then
    if c.toNat ≤ 65535 then "\\u" ++ hex4 c.toNat
    else
      let v := c.toNat - 65536
      "\\u" ++ hex4 (55296 + v / 1024) ++ "\\u" ++ hex4 (56320 + v % 1024)
  else String.singleton c

def jsonEscape (s : String) : String :=
  String.join (s.data.map jsonEscapeChar)

mutual

/-- `json.dumps(v, separators=(",", ":"))`: the compact canonical rendering the
CLI uses for payloads and history values. -/
def jsonDumps : JVal → String
  | .null => "null"
  | .bool true => "true"
  | .bool false => "false"
  | .int n => toString n
  | .str s => "\"" ++ jsonEscape s ++ "\""
  | .arr xs => "[" ++ jsonDumpsList xs ++ "]"

/-- Array elements joined by the compact item separator ",". -/
def jsonDumpsList : List JVal → String
  | [] => ""
  | [x] => jsonDumps x
  | x :: xs => jsonDumps x ++ "," ++ jsonDumpsList xs

end

/-- Python `repr` of a `str` (modelled for the protocol's values: the quote
character choice and the ASCII escapes; printable non-ASCII is kept as is). -/
def pyStrRepr (s : String) : String :=
  let sq := Char.ofNat 39
  let dq := Char.ofNat 34
  let q := if s.data.contains sq ∧ ¬ s.data.contains dq then dq else sq
  String.singleton q ++ String.join (s.data.map (fun c =>
    if c = Char.ofNat 92 then "\\\\"
    else if c = q then "\\" ++ String.singleton q
    else if c = Char.ofNat 10 then "\\n"
    else if c = Char.ofNat 13 then "\\r"
    else if c = Char.ofNat 9 then "\\t"
    else if c.toNat < 32 ∨ c.toNat = 127 then
      "\\x" ++ String.mk [hexDigit (c.toNat / 16 % 16), hexDigit (c.toNat % 16)]
    else String.singleton c)) ++ String.singleton q

mutual

/-- Python `str()` of a decoded JSON value, as an f-string interpolates it:
`None`, `True`/`False`, the integer's digits, the string itself, and for a
list the bracketed comma-joined `repr` of its elements. -/
def pyStr : JVal → String
  | .null => "None"
  | .bool true => "True"
  | .bool false => "False"
  | .int n => toString n
  | .str s => s
  | .arr xs => "[" ++ pyReprList xs ++ "]"

/-- Python `repr()` of a decoded JSON value. -/
def pyRepr : JVal → String
  | .null => "None"
  | .bool true => "True"
  | .bool false => "False"
  | .int n => toString n
  | .str s => pyStrRepr s
  | .arr xs => "[" ++ pyReprList xs ++ "]"

/-- List elements joined by ", ", each via `repr`. -/
def pyReprList : List JVal → String
  | [] => ""
  | [x] => pyRepr x
  | x :: xs => pyRepr x ++ ", " ++ pyReprList xs

end

/-- Python `int()`-compatible reading of a decoded JSON value for `sum()`:
integers are themselves, booleans count 1/0, anything else makes `sum()`
raise `TypeError`. -/
def pyIntOf : JVal → Option Int
  | .int n => some n
  | .bool b => some (if b then 1 else 0)
  | _ => none

-- ---------------------------------------------------------------------------
-- _print_roll_result (cli.py 548-583): roll line (C2) and resource delta (C7)
-- ---------------------------------------------------------------------------

/-- The loop condition of the backward scan (cli.py 554): the record is a
list, has at least two elements, and its element 1 equals the string
"ROLL_THE_SHELLS". -/
def isRollRec (r : JVal) : Bool :=
  match r with
  | .arr xs => decide (2 ≤ xs.length) && (xs[1]? == some (JVal.str "ROLL_THE_SHELLS"))
  | _ => false

/-- The value of the Python variable `roll_val` after the scan (cli.py
551-556): `r[2]` of the most recent matching record when it has one, else
`None` (also when no record matches, or the stored value is JSON null —
Python cannot tell those apart here, `None` both ways). -/
def roll_val_of (records : List JVal) : JVal :=
  match records.reverse.find? isRollRec with
  | some (.arr xs) =>
    match xs[2]? with
    | some v => v
    | none => .null
  | _ => .null

/-- The roll line(s) of `_print_roll_result` (cli.py 558-562): nothing when
`roll_val` is `None`; the `a + b = sum` format for a two-element list (where
`sum()` raises `TypeError` — modelled as `none` — unless the elements are
numbers); the raw value otherwise. -/
def roll_lines (records : List JVal) : Option (List String) :=
  let roll_val := roll_val_of records
  if roll_val = .null then some []
  else
    match roll_val with
    | .arr xs =>
      if xs.length = 2 then
        match xs.mapM pyIntOf with
        | some ns =>
          some ["  Rolled: " ++ pyStr (xs.getD 0 .null) ++ " + " ++ pyStr (xs.getD 1 .null)
            ++ " = " ++ toString ns.sum]
        | none => none
      else some ["  Rolled: " ++ pyStr (.arr xs)]
    | v => some ["  Rolled: " ++ pyStr v]

/-- `d.get(k, {})` on the `{color: {resource: count}}` mappings. -/
def dictGetD (d : List (String × List (String × Int))) (k : String) : List (String × Int) :=
  match d.find? (fun kv => kv.1 == k) with
  | some kv => kv.2
  | none => []

/-- The `gains` list built for one color (cli.py 572-578): in `RESOURCES`
order, `+N KIND` for a positive post−pre difference, `N KIND` (N carrying its
minus sign) for a negative one, nothing for zero. -/
def gains_for (pre post : List (String × Int)) : List String :=
  RESOURCES.filterMap (fun res =>
    let diff := dictGet post res 0 - dictGet pre res 0
    if diff > 0 then some ("+" ++ toString diff ++ " " ++ res)
    else if diff < 0 then some (toString diff ++ " " ++ res)
    else none)

/-- The resource-delta section of `_print_roll_result` (cli.py 565-583):
skipped entirely when `pre_resources` is `None` **or an empty dict** (Python
`if pre_resources:` tests truthiness); otherwise the section header, one line
per color with a nonempty gains list, and the literal no-production line when
no color had one. -/
def roll_delta_lines : GameState →
    Option (List (String × List (String × Int))) → List String
  | _, none => []
  | state, some pre =>
    if pre.isEmpty then []
    else
      let post := all_player_resources state
      let body := state.colors.filterMap (fun c =>
        let gains := gains_for (dictGetD pre c) (dictGetD post c)
        if gains.isEmpty then none
        else some ("  " ++ c ++ ": " ++ String.intercalate ", " gains))
      "\n--- Resources Distributed ---" ::
        (if body.isEmpty then ["  No resources produced."] else body)

/-- `_print_roll_result` (cli.py 548-583): roll line(s) then the delta
section; `none` models the uncaught `TypeError` of `sum()` on a two-element
non-numeric roll value. -/
def print_roll_result (state : GameState)
    (pre_resources : Option (List (String × List (String × Int)))) : Option (List String) :=
  match roll_lines state.action_records with
  | none => none
  | some rl => some (rl ++ roll_delta_lines state pre_resources)

-- ---------------------------------------------------------------------------
-- _print_actions (cli.py 291-360): action grouping (C3, C9)
-- ---------------------------------------------------------------------------

/-- The `_ACTION_HINTS` table (cli.py 291-311): the four action types with a
static usage hint. -/
def ACTION_HINTS : List (String × String) :=
  [("RELEASE_CATCH",
    "Discard cards. Run with no value to discard randomly:\n"
    ++ "    CLI: clawtan act RELEASE_CATCH\n"
    ++ "    Or pick specific cards (freqdeck=[DRIFTWOOD,CORAL,SHRIMP,KELP,PEARL]):\n"
    ++ "    CLI: clawtan act RELEASE_CATCH '[1,0,0,1,0]'"),
   ("MOVE_THE_KRAKEN",
    "Move robber: value = [coordinate, victim_color_or_null, null].\n"
    ++ "    CLI: clawtan act MOVE_THE_KRAKEN '[[0,1,-1],\"BLUE\",null]'"),
   ("OCEAN_TRADE",
    "Maritime trade: give 4 (or 3/2 with port) of one resource, receive 1.\n"
    ++ "    Value = list of resources: first N are given, last 1 is received.\n"
    ++ "    CLI: clawtan act OCEAN_TRADE '[\"KELP\",\"KELP\",\"KELP\",\"KELP\",\"SHRIMP\"]'"),
   ("PLAY_BOUNTIFUL_HARVEST",
    "Year of Plenty: pick 2 free resources.\n"
    ++ "    CLI: clawtan act PLAY_BOUNTIFUL_HARVEST '[\"DRIFTWOOD\",\"CORAL\"]'")]

/-- `_ACTION_HINTS.get(atype)`: only a string group key can match the table's
string keys. -/
def hint_for (k : JVal) : Option String :=
  match k with
  | .str s => (ACTION_HINTS.find? (fun kv => kv.1 == s)).map (·.2)
  | _ => none

/-- The partition test of cli.py 319-325: an action goes to `other_colors`
(and is skipped) iff it is a list of length ≥ 2 whose element 0 is truthy and
`!=` the agent's color, with the agent's color itself truthy (it is a
non-empty string whenever the CLI reaches this function). Everything else
stays in `my_actions` — in particular actions with a `null` color slot. -/
def is_other_action (my_color : String) (a : JVal) : Bool :=
  match a with
  | .arr xs =>
    if 2 ≤ xs.length then
      let c := xs.getD 0 .null
      my_color != "" && pyTruthy c && !(JVal.beq c (.str my_color))
    else false
  | _ => false

/-- The color slot collected into the `other_colors` set for a skipped
action. -/
def other_color_of (a : JVal) : JVal :=
  match a with
  | .arr xs => xs.getD 0 .null
  | _ => .null

/-- The distinct members of the Python set `other_colors` (iteration order is
irrelevant: the code only reads the set through `sorted`). -/
def other_colors_of (my_color : String) (actions : List JVal) : List JVal :=
  ((actions.filter (is_other_action my_color)).map other_color_of).dedup

/-- `sorted(other_colors)` followed by `", ".join`: the collected colors are
protocol strings, sorted lexicographically (distinct after the set). -/
def jval_str : JVal → Option String
  | .str s => some s
  | _ => none

def sorted_color_strings (cs : List JVal) : List String :=
  List.insertionSort (· ≤ ·) (cs.filterMap jval_str)

/-- The group key of cli.py 333: `a[1]` for a list of length ≥ 2, else
`str(a)` (a Python string either way for protocol-shaped input). -/
def action_key (a : JVal) : JVal :=
  match a with
  | .arr xs => if 2 ≤ xs.length then xs.getD 1 .null else .str (pyStr a)
  | _ => .str (pyStr a)

/-- The group value of cli.py 334: `a[2]` when present, else `None`. -/
def action_val (a : JVal) : JVal :=
  match a with
  | .arr xs => xs.getD 2 .null
  | _ => .null

/-- Append one (key, value) into the ordered group list, as
`defaultdict(list)` does: first occurrence of a key fixes its position. -/
def add_to_groups (gs : List (JVal × List JVal)) (k : JVal) (v : JVal) :
    List (JVal × List JVal) :=
  match gs with
  | [] => [(k, [v])]
  | (k0, vs) :: rest =>
    if k0 = k then (k0, vs ++ [v]) :: rest
    else (k0, vs) :: add_to_groups rest k v

/-- The `grouped` mapping of cli.py 331-335, in key insertion order. -/
def group_actions (as : List JVal) : List (JVal × List JVal) :=
  as.foldl (fun gs a => add_to_groups gs (action_key a) (action_val a)) []

/-- The lines printed for one group (cli.py 337-357): bare type (plus hint)
when every payload is `None`; with payloads present, a hinted type always gets
the count line, the hint and one payload per line, while a hintless type gets
one `|`-joined line iff it fits the 120-character budget and the count plus
one payload per line otherwise. -/
def render_group (k : JVal) (values : List JVal) : List String :=
  let atype := pyStr k
  let hint := hint_for k
  if values.all (fun v => v = .null) then
    ("  " ++ atype) ::
      (match hint with
       | some h => ["    (" ++ h ++ ")"]
       | none => [])
  else
    let formatted := values.map jsonDumps
    match hint with
    | some h =>
      ("  " ++ atype ++ " (" ++ toString values.length ++ " options):")
        :: ("    (" ++ h ++ ")")
        :: formatted.map (fun f => "    " ++ f)
    | none =>
      let joined := String.intercalate " | " formatted
      if joined.length + atype.length + 4 ≤ 120 then
        ["  " ++ atype ++ ": " ++ joined]
      else
        ("  " ++ atype ++ " (" ++ toString values.length ++ " options):")
          :: formatted.map (fun f => "    " ++ f)

/-- `_print_actions(actions, my_color)` (cli.py 314-360): the section header;
then, when no action stayed in `my_actions` but some other color is waiting,
the single waiting line and nothing else; otherwise every group's lines in
insertion order, and a trailing note when other colors still need to act. -/
def print_actions (actions : List JVal) (my_color : String) : List String :=
  let my_actions := actions.filter (fun a => !(is_other_action my_color a))
  let other_colors := other_colors_of my_color actions
  "\n--- Available Actions ---" ::
    (if my_actions.isEmpty ∧ ¬ other_colors.isEmpty then
      ["  (none for you -- waiting on: "
        ++ String.intercalate ", " (sorted_color_strings other_colors) ++ ")"]
    else
      ((group_actions my_actions).map (fun g => render_group g.1 g.2)).flatten
        ++ (if other_colors.isEmpty then []
            else ["\n  (other players still need to act: "
              ++ String.intercalate ", " (sorted_color_strings other_colors) ++ ")"]))

-- ---------------------------------------------------------------------------
-- _print_history (cli.py 363-378): the history delta (C8)
-- ---------------------------------------------------------------------------

/-- How `_print_history` renders one record (cli.py 369-378): for a list of
length ≥ 2, `color: action` with the compact JSON value appended unless the
value slot is missing, `None`, or the empty string (the code's sentinel for
"no value" is `""`); anything else is printed through `str()`. -/
def render_record (r : JVal) : String :=
  match r with
  | .arr xs =>
    if 2 ≤ xs.length then
      let color := pyStr (xs.getD 0 .null)
      let action := pyStr (xs.getD 1 .null)
      match xs[2]? with
      | some v =>
        if v = .null ∨ v = .str "" then "  " ++ color ++ ": " ++ action
        else "  " ++ color ++ ": " ++ action ++ " " ++ jsonDumps v
      | none => "  " ++ color ++ ": " ++ action
    else "  " ++ pyStr (.arr xs)
  | r0 => "  " ++ pyStr r0

/-- `_print_history(records, since)` (cli.py 363-378): nothing at all when the
suffix `records[since:]` is empty, else a section header naming the suffix
length and one line per suffix record, in order. -/
def print_history (records : List JVal) (since : Nat) : List String :=
  let recent := records.drop since
  if recent.isEmpty then []
  else
    ("\n--- Recent Actions (" ++ toString recent.length ++ " moves) ---")
      :: recent.map render_record

-- ---------------------------------------------------------------------------
-- cmd_wait poll loop (cli.py 452-507): the turn waiter (C1, C4, C5, C10)
-- ---------------------------------------------------------------------------

/-- The status document fields `cmd_wait`'s loop reads. `winning_color`,
`started` and `your_turn` are read with a `None` default, so JSON null stands
for an absent key too; `players_joined`, `num_players` and `current_color`
are read with a `"?"` default, so absent (`none`) and null differ there. -/
structure Status where
  winning_color : JVal
  started : JVal
  players_joined : Option JVal
  num_players : Option JVal
  current_color : Option JVal
  your_turn : JVal
deriving DecidableEq, Repr

/-- One status fetch: `_get` either returns the decoded status document or
raises `APIError(code, detail)` (transport failures are mapped to code 0 by
`_req`). -/
inductive FetchResult where
  | err (code : Int) (detail : String)
  | ok (status : Status)
deriving DecidableEq, Repr

/-- One iteration's observable input: the fetch outcome and the value of
`time.monotonic() >= deadline` at whichever of the loop's two deadline checks
this iteration reaches (each path reads the clock at most once). -/
structure PollInput where
  fetch : FetchResult
  elapsed : Bool
deriving DecidableEq, Repr

/-- What one loop iteration does next: exit fatally (not found / timeout),
return through the GAME OVER branch, break to the turn briefing, or sleep the
poll interval and iterate with the updated `phase_shown`. -/
inductive StepResult where
  | notFound
  | timeout
  | gameOver (winner : JVal)
  | myTurn (phase_shown : Option String)
  | retry (phase_shown : Option String)
deriving DecidableEq, Repr

/-- The progress-notice block (cli.py 486-497): under `not started`, print the
lobby notice unless `phase_shown` is already "lobby"; under started, print the
turn notice unless `phase_shown` is already "turn"; returns the notices
printed and the updated `phase_shown`. -/
def phase_notice (phase_shown : Option String) (status : Status) :
    List String × Option String :=
  if !(pyTruthy status.started) then
    if phase_shown ≠ some "lobby" then
      (["Waiting for players (" ++ pyStr (status.players_joined.getD (.str "?"))
        ++ "/" ++ pyStr (status.num_players.getD (.str "?")) ++ ")..."],
       some "lobby")
    else ([], phase_shown)
  else
    if phase_shown ≠ some "turn" then
      (["Waiting for your turn (current: "
        ++ pyStr (status.current_color.getD (.str "?")) ++ ")..."],
       some "turn")
    else ([], phase_shown)

/-- The phase the notice de-duplication keys on (spec glossary: lobby vs.
awaiting-turn, from the status's `started` flag alone). -/
def phase_label (status : Status) : String :=
  if pyTruthy status.started then "turn" else "lobby"

/-- One iteration of the poll loop (cli.py 454-507), with the stderr messages
it prints: a 404 fetch error exits NOT-FOUND at once; any other fetch error
exits TIMEOUT when the deadline has elapsed and otherwise retries after the
poll sleep; on success, a truthy `winning_color` returns through GAME OVER
before anything else, then the progress-notice block runs, then a truthy
`your_turn` breaks to the briefing, and only then the deadline is checked. -/
def waitStep (game_id : String) (phase_shown : Option String) (inp : PollInput) :
    StepResult × List String :=
  match inp.fetch with
  | .err code detail =>
    if code = 404 then (.notFound, ["ERROR: Game not found: " ++ game_id])
    else if inp.elapsed then (.timeout, ["ERROR: Timeout (" ++ detail ++ ")"])
    else (.retry phase_shown, [])
  | .ok status =>
    if pyTruthy status.winning_color then (.gameOver status.winning_color, [])
    else
      let pn := phase_notice phase_shown status
      if pyTruthy status.your_turn then (.myTurn pn.2, pn.1)
      else if inp.elapsed then (.timeout, pn.1 ++ ["ERROR: Timeout waiting for turn"])
      else (.retry pn.2, pn.1)

/-- How a run of the poll loop ends (the GAME OVER and YOUR TURN reporting
that follows a terminal transition is outside the loop model). -/
inductive WaitOutcome where
  | notFound
  | timeout
  | gameOver (winner : JVal)
  | myTurn
  | ranOut (phase_shown : Option String)
deriving DecidableEq, Repr

/-- The poll loop run over a finite input sequence, collecting every stderr
message in order; `ranOut` marks an exhausted input sequence with the loop
still polling. -/
def runWait (game_id : String) (phase_shown : Option String) :
    List PollInput → WaitOutcome × List String
  | [] => (.ranOut phase_shown, [])
  | inp :: rest =>
    match waitStep game_id phase_shown inp with
    | (.notFound, msgs) => (.notFound, msgs)
    | (.timeout, msgs) => (.timeout, msgs)
    | (.gameOver w, msgs) => (.gameOver w, msgs)
    | (.myTurn _, msgs) => (.myTurn, msgs)
    | (.retry ps, msgs) =>
      let r := runWait game_id ps rest
      (r.1, msgs ++ r.2)

-- ---------------------------------------------------------------------------
-- C6: my_status is none iff the color is not a participant
-- ---------------------------------------------------------------------------

theorem find_idx_neg_iff (cs : List String) (c : String) :
    find_idx cs c < 0 ↔ c ∉ cs := by
  induction cs with
  | nil => simp [find_idx]
  | cons a as ih =>
    by_cases h : a = c
    · subst h
      simp [find_idx]
    · simp only [find_idx, if_neg h, List.mem_cons]
      by_cases hr : find_idx as c < 0
      · simp only [if_pos hr]
        have : c ∉ as := ih.mp hr
        constructor
        · intro _ hmem
          rcases hmem with hmem | hmem
          · exact h hmem.symm
          · exact this hmem
        · intro _
          decide
      · simp only [if_neg hr]
        push_neg at hr
        constructor
        · intro hlt
          omega
        · intro hmem
          exfalso
          exact hmem (Or.inr (by
            by_contra hnotin
            exact hr.not_lt ((ih.mpr hnotin))))

/-- C6: for every snapshot and color, the self-status projection `_my_status`
returns `none` iff the color is absent from the snapshot's `colors` list; for
a participating color it always returns a status record (missing
`player_state` keys default to zero/false by construction of `dictGet`). -/
theorem C6_my_status_none_iff_not_participant (state : GameState) (color : String) :
    my_status state color = none ↔ color ∉ state.colors := by
  unfold my_status
  by_cases h : find_idx state.colors color < 0
  · simp only [if_pos h]
    simpa using (find_idx_neg_iff state.colors color).mp h
  · simp only [if_neg h]
    constructor
    · intro hc
      exact absurd hc (by simp)
    · intro hmem
      exact absurd ((find_idx_neg_iff state.colors color).mpr hmem) h

-- ---------------------------------------------------------------------------
-- C1, C10: fetch-error handling and check order in the poll loop
-- ---------------------------------------------------------------------------

/-- C1: during the wait poll loop, a status fetch failing with HTTP 404 exits
fatally at once — zero retries, the rest of the input sequence is never
consumed, whatever the deadline says; every other fetch failure retries after
the poll sleep while the deadline has not elapsed (printing nothing) and exits
with the timeout failure once it has. -/
theorem C1_wait_fetch_failures (game_id : String) (ps : Option String) (detail : String)
    (e : Bool) (rest : List PollInput) (code : Int) (h404 : code ≠ 404) :
    runWait game_id ps (⟨.err 404 detail, e⟩ :: rest) =
      (.notFound, ["ERROR: Game not found: " ++ game_id]) ∧
    runWait game_id ps (⟨.err code detail, true⟩ :: rest) =
      (.timeout, ["ERROR: Timeout (" ++ detail ++ ")"]) ∧
    runWait game_id ps (⟨.err code detail, false⟩ :: rest) = runWait game_id ps rest := by
  refine ⟨?_, ?_, ?_⟩ <;> simp [runWait, waitStep, h404]

theorem C1_witness :
    runWait "g1" none [⟨.err 404 "boom", false⟩] =
      (.notFound, ["ERROR: Game not found: g1"]) ∧
    runWait "g1" none [⟨.err 0 "boom", true⟩] = (.timeout, ["ERROR: Timeout (boom)"]) ∧
    runWait "g1" none [⟨.err 0 "boom", false⟩] = (.ranOut none, []) := by
  have h := C1_wait_fetch_failures "g1" none "boom" false [] 0 (by decide)
  exact ⟨h.1.trans rfl, h.2.1.trans rfl, h.2.2.trans rfl⟩

/-- C10: on a successfully fetched status the loop checks `winning_color`,
then the `your_turn` flag, and only afterwards the deadline: a poll carrying a
truthy winning color or the your-turn flag terminates the wait successfully
even when the deadline has already elapsed (`e` is arbitrary), and the timeout
failure is reached only when neither holds. -/
theorem C10_success_checks_precede_deadline (game_id : String) (ps : Option String)
    (st : Status) (e : Bool) (rest : List PollInput) :
    (pyTruthy st.winning_color = true →
      runWait game_id ps (⟨.ok st, e⟩ :: rest) = (.gameOver st.winning_color, [])) ∧
    (pyTruthy st.winning_color = false → pyTruthy st.your_turn = true →
      (runWait game_id ps (⟨.ok st, e⟩ :: rest)).1 = .myTurn) ∧
    (pyTruthy st.winning_color = false → pyTruthy st.your_turn = false → e = true →
      (runWait game_id ps (⟨.ok st, e⟩ :: rest)).1 = .timeout) := by
  refine ⟨fun hw => ?_, fun hw ht => ?_, fun hw ht he => ?_⟩
  · simp [runWait, waitStep, hw]
  · simp [runWait, waitStep, hw, ht]
  · simp [runWait, waitStep, hw, ht, he]

theorem C10_witness :
    runWait "g" none [⟨.ok ⟨.str "BLUE", .bool true, none, none, none, .bool false⟩, true⟩] =
      (.gameOver (.str "BLUE"), []) ∧
    (runWait "g" none [⟨.ok ⟨.null, .bool true, none, none, some (.str "RED"), .bool true⟩, true⟩]).1 =
      .myTurn := by
  have h1 := (C10_success_checks_precede_deadline "g" none
    ⟨.str "BLUE", .bool true, none, none, none, .bool false⟩ true []).1 rfl
  have h2 := (C10_success_checks_precede_deadline "g" none
    ⟨.null, .bool true, none, none, some (.str "RED"), .bool true⟩ true []).2.1 rfl rfl
  exact ⟨h1, h2⟩

-- ---------------------------------------------------------------------------
-- C5: phase-notice de-duplication is keyed on the phase label
-- ---------------------------------------------------------------------------

theorem phase_notice_snd (ps : Option String) (st : Status) :
    (phase_notice ps st).2 = some (phase_label st) := by
  unfold phase_notice phase_label
  by_cases h : pyTruthy st.started = true <;>
    by_cases hl : ps = some "lobby" <;> by_cases ht : ps = some "turn" <;>
      simp_all

theorem phase_notice_in_phase (st : Status) :
    phase_notice (some (phase_label st)) st = ([], some (phase_label st)) := by
  unfold phase_notice phase_label
  by_cases h : pyTruthy st.started = true <;> simp [h]

theorem runWait_same_phase_silent (game_id : String) (L : String) (sts : List Status)
    (hall : ∀ st ∈ sts, pyTruthy st.winning_color = false ∧ pyTruthy st.your_turn = false ∧
      phase_label st = L) :
    runWait game_id (some L) (sts.map (fun st => ⟨.ok st, false⟩)) = (.ranOut (some L), []) := by
  induction sts with
  | nil => rfl
  | cons st sts ih =>
    obtain ⟨hw, ht, hl⟩ := hall st (by simp)
    have hpn : phase_notice (some L) st = ([], some L) := by
      simpa [hl] using phase_notice_in_phase st
    have hrest := ih (fun s hs => hall s (by simp [hs]))
    simp [runWait, waitStep, hw, ht, hpn, hrest]

/-- C5: the notice de-duplication is keyed on the phase label alone. After any
successful non-winning poll the stored label is that poll's phase; a
consecutive poll in the same phase emits no notice at all — `st2` is
arbitrary, so in particular a changed `current_color` does not re-trigger it —
while a lobby↔turn transition always emits one; and an uninterrupted run of
polls inside one phase emits no notice whatsoever once the phase was entered. -/
theorem C5_phase_notice_dedup (game_id : String) (ps : Option String) (st1 st2 : Status)
    (sts : List Status)
    (hseq : ∀ st ∈ sts, pyTruthy st.winning_color = false ∧ pyTruthy st.your_turn = false ∧
      phase_label st = phase_label st1) :
    (phase_notice ps st1).2 = some (phase_label st1) ∧
    (phase_label st1 = phase_label st2 →
      (phase_notice (phase_notice ps st1).2 st2).1 = []) ∧
    (phase_label st1 ≠ phase_label st2 →
      (phase_notice (phase_notice ps st1).2 st2).1 ≠ []) ∧
    (runWait game_id (some (phase_label st1))
      (sts.map (fun st => ⟨.ok st, false⟩))).2 = [] := by
  refine ⟨phase_notice_snd ps st1, fun hsame => ?_, fun hdiff => ?_, ?_⟩
  · rw [phase_notice_snd, hsame, phase_notice_in_phase]
  · rw [phase_notice_snd]
    unfold phase_notice phase_label at hdiff ⊢
    by_cases h1 : pyTruthy st1.started = true <;> by_cases h2 : pyTruthy st2.started = true <;>
      simp_all
  · rw [runWait_same_phase_silent game_id (phase_label st1) sts hseq]

theorem C5_witness :
    (phase_notice none ⟨.null, .bool true, none, none, some (.str "RED"), .null⟩).2 =
      some "turn" ∧
    (phase_notice
      (phase_notice none ⟨.null, .bool true, none, none, some (.str "RED"), .null⟩).2
      ⟨.null, .bool true, none, none, some (.str "BLUE"), .null⟩).1 = [] ∧
    (runWait "g" (some "turn")
      ([⟨.null, .bool true, none, none, some (.str "RED"), .null⟩,
        ⟨.null, .bool true, none, none, some (.str "BLUE"), .null⟩].map
          (fun st => (⟨.ok st, false⟩ : PollInput)))).2 = [] := by
  have h := C5_phase_notice_dedup "g" none
    ⟨.null, .bool true, none, none, some (.str "RED"), .null⟩
    ⟨.null, .bool true, none, none, some (.str "BLUE"), .null⟩
    [⟨.null, .bool true, none, none, some (.str "RED"), .null⟩,
     ⟨.null, .bool true, none, none, some (.str "BLUE"), .null⟩]
    (by intro st hst; fin_cases hst <;> exact ⟨rfl, rfl, rfl⟩)
  exact ⟨h.1.trans rfl, h.2.1 rfl, h.2.2.2⟩

-- ---------------------------------------------------------------------------
-- C4: the turn notice is printed even on the poll that detects your_turn
-- ---------------------------------------------------------------------------

/-- C4 counterexample: a successful started poll flagged as the agent's turn,
with the turn phase not yet shown, prints the waiting-for-turn notice on that
very poll and then stops — refuting the claim that the notice is printed only
when the status is not flagged as the agent's turn. -/
theorem C4_counterexample :
    waitStep "g" none
      ⟨.ok ⟨.null, .bool true, none, none, some (.str "BLUE"), .bool true⟩, false⟩ =
      (.myTurn (some "turn"), ["Waiting for your turn (current: BLUE)..."]) := by
  rfl

/-- C4 amended: on a successful, non-winning, started poll, the
waiting-for-turn notice is printed iff the stored phase label is not already
"turn" — including on the very poll whose status carries the your-turn flag;
when the turn phase had already been shown, that detection stops the loop with
no notice. -/
theorem C4_turn_notice_amended (game_id : String) (ps : Option String) (st : Status) (e : Bool)
    (hw : pyTruthy st.winning_color = false) (hs : pyTruthy st.started = true) :
    (pyTruthy st.your_turn = true →
      waitStep game_id ps ⟨.ok st, e⟩ =
        (.myTurn (some "turn"),
         if ps = some "turn" then []
         else ["Waiting for your turn (current: "
           ++ pyStr (st.current_color.getD (.str "?")) ++ ")..."])) ∧
    (pyTruthy st.your_turn = false → e = false →
      waitStep game_id ps ⟨.ok st, e⟩ =
        (.retry (some "turn"),
         if ps = some "turn" then []
         else ["Waiting for your turn (current: "
           ++ pyStr (st.current_color.getD (.str "?")) ++ ")..."])) := by
  constructor
  · intro ht
    by_cases hp : ps = some "turn" <;> simp [waitStep, phase_notice, hw, hs, ht, hp]
  · intro ht he
    subst he
    by_cases hp : ps = some "turn" <;> simp [waitStep, phase_notice, hw, hs, ht, hp]

theorem C4_witness :
    waitStep "g" (some "turn")
      ⟨.ok ⟨.null, .bool true, none, none, some (.str "BLUE"), .bool true⟩, false⟩ =
      (.myTurn (some "turn"), []) := by
  have h := (C4_turn_notice_amended "g" (some "turn")
    ⟨.null, .bool true, none, none, some (.str "BLUE"), .bool true⟩ false rfl rfl).1 rfl
  exact h.trans rfl

-- ---------------------------------------------------------------------------
-- C2: roll-value extraction
-- ---------------------------------------------------------------------------

/-- C2 counterexample: a record sequence whose most recent (only)
ROLL_THE_SHELLS record carries no value — the scan matches it, yet the code
omits the roll line instead of reporting the raw value, refuting the claim for
sequences whose most recent roll record carries no value. -/
theorem C2_counterexample :
    isRollRec (.arr [.str "RED", .str "ROLL_THE_SHELLS"]) = true ∧
    roll_lines [.arr [.str "RED", .str "ROLL_THE_SHELLS"]] = some [] := by
  exact ⟨rfl, rfl⟩

/-- C2 amended: the reporter scans the action records from the end for the
most recent list record whose element 1 is ROLL_THE_SHELLS; when none exists
the roll line is omitted, and likewise when the found record carries no value
(or a null one). A present two-element value is put through the
`a + b = a+b` format: when both elements are numbers the line carries their
sum, and otherwise `sum()` raises an uncaught TypeError (modelled as `none` —
no line, no further output). Any other present value is reported raw. Every
case of a present value is covered: two-element numeric, two-element
non-numeric, other-length list, non-list. -/
theorem C2_roll_extraction (records : List JVal) (xs : List JVal) :
    (records.reverse.find? isRollRec = none → roll_lines records = some []) ∧
    (records.reverse.find? isRollRec = some (.arr xs) →
      ((xs[2]? = none ∨ xs[2]? = some .null) → roll_lines records = some []) ∧
      (∀ ys ns, xs[2]? = some (.arr ys) → ys.length = 2 → ys.mapM pyIntOf = some ns →
        roll_lines records =
          some ["  Rolled: " ++ pyStr (ys.getD 0 .null) ++ " + " ++ pyStr (ys.getD 1 .null)
            ++ " = " ++ toString ns.sum]) ∧
      (∀ ys, xs[2]? = some (.arr ys) → ys.length = 2 → ys.mapM pyIntOf = none →
        roll_lines records = none) ∧
      (∀ ys, xs[2]? = some (.arr ys) → ys.length ≠ 2 →
        roll_lines records = some ["  Rolled: " ++ pyStr (.arr ys)]) ∧
      (∀ v, xs[2]? = some v → (∀ ys, v ≠ .arr ys) → v ≠ .null →
        roll_lines records = some ["  Rolled: " ++ pyStr v])) := by
  constructor
  · intro hnone
    simp [roll_lines, roll_val_of, hnone]
  · intro hfound
    refine ⟨fun hv => ?_, fun ys ns hv hlen hm => ?_, fun ys hv hlen hm => ?_,
      fun ys hv hlen => ?_, fun v hv harr hnull => ?_⟩
    · rcases hv with hv | hv <;> simp [roll_lines, roll_val_of, hfound, hv]
    · have harrne : JVal.arr ys ≠ JVal.null := by intro h; cases h
      have hm2 : List.mapM.loop pyIntOf ys [] = some ns := hm
      simp [roll_lines, roll_val_of, hfound, hv, harrne, hlen, hm, hm2]
    · have harrne : JVal.arr ys ≠ JVal.null := by intro h; cases h
      have hm2 : List.mapM.loop pyIntOf ys [] = none := hm
      simp [roll_lines, roll_val_of, hfound, hv, harrne, hlen, hm, hm2]
    · have harrne : JVal.arr ys ≠ JVal.null := by intro h; cases h
      simp [roll_lines, roll_val_of, hfound, hv, harrne, hlen]
    · cases v with
      | null => exact absurd rfl hnull
      | arr ys => exact absurd rfl (harr ys)
      | bool b => simp [roll_lines, roll_val_of, hfound, hv]
      | int n => simp [roll_lines, roll_val_of, hfound, hv]
      | str s => simp [roll_lines, roll_val_of, hfound, hv]

theorem C2_witness :
    roll_lines [.arr [.str "RED", .str "ROLL_THE_SHELLS", .arr [.int 3, .int 4]]] =
      some ["  Rolled: 3 + 4 = 7"] ∧
    roll_lines [.arr [.str "RED", .str "ROLL_THE_SHELLS",
      .arr [.str "KELP", .str "SHRIMP"]]] = none := by
  have h1 := (C2_roll_extraction
    [.arr [.str "RED", .str "ROLL_THE_SHELLS", .arr [.int 3, .int 4]]]
    [.str "RED", .str "ROLL_THE_SHELLS", .arr [.int 3, .int 4]]).2 rfl
  have h2 := (C2_roll_extraction
    [.arr [.str "RED", .str "ROLL_THE_SHELLS", .arr [.str "KELP", .str "SHRIMP"]]]
    [.str "RED", .str "ROLL_THE_SHELLS", .arr [.str "KELP", .str "SHRIMP"]]).2 rfl
  exact ⟨(h1.2.1 [.int 3, .int 4] [3, 4] rfl rfl rfl).trans rfl,
    h2.2.2.1 [.str "KELP", .str "SHRIMP"] rfl rfl rfl⟩

-- ---------------------------------------------------------------------------
-- C7: resource delta after a roll
-- ---------------------------------------------------------------------------

/-- C7 counterexample: with a present but **empty** pre-roll resource mapping
(Python `if pre_resources:` is falsy on an empty dict) the whole delta section
is skipped, printing nothing — although no player has a nonzero difference,
the literal no-production message is not printed, refuting the claim as
universally stated. -/
theorem C7_counterexample :
    roll_delta_lines ⟨["RED"], [], [], []⟩ (some []) = [] := by
  rfl

theorem gains_for_eq_filterMap (pre post : List (String × Int)) :
    gains_for pre post = RESOURCES.filterMap (fun res =>
      let diff := dictGet post res 0 - dictGet pre res 0
      if diff = 0 then none
      else some (if 0 < diff then "+" ++ toString diff ++ " " ++ res
        else toString diff ++ " " ++ res)) := by
  unfold gains_for
  apply List.filterMap_congr
  intro res _
  rcases lt_trichotomy (dictGet post res 0 - dictGet pre res 0) 0 with h | h | h
  · simp [lt_asymm h, h, h.ne]
  · simp [h]
  · simp [h, lt_asymm h, ne_of_gt h]

/-- C7 amended: for every **nonempty** pre-roll per-player resource mapping
and post-roll snapshot, the delta section prints the header and, for each
color of the snapshot, exactly the resource kinds whose post−pre difference is
nonzero (`+N KIND` for gains, `-N KIND` for losses, the sign carried by the
integer), omitting colors with no change; and when every color's every kind is
unchanged it prints the literal no-production line instead of nothing. An
empty or absent mapping skips the section entirely. -/
theorem C7_resource_delta (state : GameState)
    (pre : List (String × List (String × Int))) (hne : pre ≠ []) :
    roll_delta_lines state (some pre) =
      ("\n--- Resources Distributed ---" ::
        (let body := state.colors.filterMap (fun c =>
          let gains := RESOURCES.filterMap (fun res =>
            let diff := dictGet (dictGetD (all_player_resources state) c) res 0
              - dictGet (dictGetD pre c) res 0
            if diff = 0 then none
            else some (if 0 < diff then "+" ++ toString diff ++ " " ++ res
              else toString diff ++ " " ++ res))
          if gains = [] then none
          else some ("  " ++ c ++ ": " ++ String.intercalate ", " gains))
         if body = [] then ["  No resources produced."] else body)) ∧
    ((∀ c ∈ state.colors, ∀ res ∈ RESOURCES,
        dictGet (dictGetD (all_player_resources state) c) res 0 =
          dictGet (dictGetD pre c) res 0) →
      roll_delta_lines state (some pre) =
        ["\n--- Resources Distributed ---", "  No resources produced."]) := by
  have hfalse : pre.isEmpty = false := by
    cases pre with
    | nil => exact absurd rfl hne
    | cons a l => rfl
  have hb : state.colors.filterMap (fun c =>
      let gains := gains_for (dictGetD pre c) (dictGetD (all_player_resources state) c)
      if gains.isEmpty then none
      else some ("  " ++ c ++ ": " ++ String.intercalate ", " gains)) =
    state.colors.filterMap (fun c =>
      let gains := RESOURCES.filterMap (fun res =>
        let diff := dictGet (dictGetD (all_player_resources state) c) res 0
          - dictGet (dictGetD pre c) res 0
        if diff = 0 then none
        else some (if 0 < diff then "+" ++ toString diff ++ " " ++ res
          else toString diff ++ " " ++ res))
      if gains = [] then none
      else some ("  " ++ c ++ ": " ++ String.intercalate ", " gains)) := by
    apply List.filterMap_congr
    intro c _
    rw [gains_for_eq_filterMap]
    simp [List.isEmpty_iff]
  have hmain : roll_delta_lines state (some pre) =
      "\n--- Resources Distributed ---" ::
        (let body := state.colors.filterMap (fun c =>
          let gains := RESOURCES.filterMap (fun res =>
            let diff := dictGet (dictGetD (all_player_resources state) c) res 0
              - dictGet (dictGetD pre c) res 0
            if diff = 0 then none
            else some (if 0 < diff then "+" ++ toString diff ++ " " ++ res
              else toString diff ++ " " ++ res))
          if gains = [] then none
          else some ("  " ++ c ++ ": " ++ String.intercalate ", " gains))
         if body = [] then ["  No resources produced."] else body) := by
    simp only [roll_delta_lines, hfalse, Bool.false_eq_true, if_false]
    rw [hb]
    simp [List.isEmpty_iff]
  refine ⟨hmain, fun hzero => ?_⟩
  rw [hmain]
  have hbody : state.colors.filterMap (fun c =>
      let gains := RESOURCES.filterMap (fun res =>
        let diff := dictGet (dictGetD (all_player_resources state) c) res 0
          - dictGet (dictGetD pre c) res 0
        if diff = 0 then none
        else some (if 0 < diff then "+" ++ toString diff ++ " " ++ res
          else toString diff ++ " " ++ res))
      if gains = [] then none
      else some ("  " ++ c ++ ": " ++ String.intercalate ", " gains)) = [] := by
    rw [List.filterMap_eq_nil_iff]
    intro c hc
    have hg : RESOURCES.filterMap (fun res =>
        let diff := dictGet (dictGetD (all_player_resources state) c) res 0
          - dictGet (dictGetD pre c) res 0
        if diff = 0 then none
        else some (if 0 < diff then "+" ++ toString diff ++ " " ++ res
          else toString diff ++ " " ++ res)) = [] := by
      rw [List.filterMap_eq_nil_iff]
      intro res hres
      rw [hzero c hc res hres]
      simp
    simp only [hg]
    rfl
  simp only [hbody]
  rfl

theorem C7_witness :
    roll_delta_lines ⟨["RED", "BLUE"], [("P0_KELP_IN_HAND", 2)], [], []⟩
      (some [("RED", [("KELP", 0)]), ("BLUE", [("SHRIMP", 1)])]) =
      ["\n--- Resources Distributed ---", "  RED: +2 KELP", "  BLUE: -1 SHRIMP"] := by
  have h := (C7_resource_delta ⟨["RED", "BLUE"], [("P0_KELP_IN_HAND", 2)], [], []⟩
    [("RED", [("KELP", 0)]), ("BLUE", [("SHRIMP", 1)])] (by simp)).1
  exact h.trans rfl

-- ---------------------------------------------------------------------------
-- C8: history delta is a suffix-only view
-- ---------------------------------------------------------------------------

/-- C8: for every record sequence and previously-seen count `n`, the history
delta output is empty exactly when `n` reaches the sequence's length (no
section header either), and otherwise consists of the header naming the suffix
length followed by exactly the records of the suffix `records[n:]`, rendered
in order. -/
theorem C8_history_suffix (records : List JVal) (n : Nat) :
    (print_history records n = [] ↔ records.length ≤ n) ∧
    (n < records.length →
      print_history records n =
        ("\n--- Recent Actions (" ++ toString (records.length - n) ++ " moves) ---")
          :: (records.drop n).map render_record) := by
  have hiff : records.drop n = [] ↔ records.length ≤ n := List.drop_eq_nil_iff
  constructor
  · by_cases h : records.drop n = []
    · simp [print_history, h, hiff.mp h]
    · have hemp : (records.drop n).isEmpty = false := by
        cases heq : records.drop n with
        | nil => exact absurd heq h
        | cons a l => rfl
      have hnle : ¬ records.length ≤ n := fun hle => h (hiff.mpr hle)
      simp [print_history, hemp, hnle]
  · intro hlt
    have h : records.drop n ≠ [] := fun hc => absurd (hiff.mp hc) (by omega)
    have hemp : (records.drop n).isEmpty = false := by
      cases heq : records.drop n with
      | nil => exact absurd heq h
      | cons a l => rfl
    simp [print_history, hemp, List.length_drop]

theorem C8_witness :
    print_history
      [.arr [.str "RED", .str "END_TIDE"], .arr [.str "BLUE", .str "BUILD_TIDE_POOL", .int 12]]
      1 =
      ["\n--- Recent Actions (1 moves) ---", "  BLUE: BUILD_TIDE_POOL 12"] ∧
    print_history
      [.arr [.str "RED", .str "END_TIDE"], .arr [.str "BLUE", .str "BUILD_TIDE_POOL", .int 12]]
      2 = [] := by
  have h := C8_history_suffix
    [.arr [.str "RED", .str "END_TIDE"], .arr [.str "BLUE", .str "BUILD_TIDE_POOL", .int 12]] 1
  have h2 := C8_history_suffix
    [.arr [.str "RED", .str "END_TIDE"], .arr [.str "BLUE", .str "BUILD_TIDE_POOL", .int 12]] 2
  exact ⟨(h.2 (by decide)).trans rfl, h2.1.mpr (by decide)⟩

-- ---------------------------------------------------------------------------
-- C3, C9: action grouping and rendering
-- ---------------------------------------------------------------------------

theorem self_actions_not_other (my t : String) (v : JVal) :
    is_other_action my (JVal.arr [.str my, .str t, v]) = false := by
  simp [is_other_action, JVal.beq]

theorem add_to_groups_single (k : JVal) (acc : List JVal) (v : JVal) :
    add_to_groups [(k, acc)] k v = [(k, acc ++ [v])] := by
  simp [add_to_groups]

theorem foldl_groups_single (k : JVal) (f : JVal → JVal)
    (hk : ∀ w, action_key (f w) = k) (hv : ∀ w, action_val (f w) = w) :
    ∀ (ws : List JVal) (acc : List JVal),
      (ws.map f).foldl (fun gs a => add_to_groups gs (action_key a) (action_val a))
        [(k, acc)] = [(k, acc ++ ws)] := by
  intro ws
  induction ws with
  | nil => intro acc; simp
  | cons w ws ih =>
    intro acc
    simp only [List.map_cons, List.foldl_cons, hk w, hv w, add_to_groups_single]
    rw [ih (acc ++ [w])]
    simp

theorem group_actions_single (k : JVal) (f : JVal → JVal)
    (hk : ∀ w, action_key (f w) = k) (hv : ∀ w, action_val (f w) = w)
    (v : JVal) (vs : List JVal) :
    group_actions ((v :: vs).map f) = [(k, v :: vs)] := by
  unfold group_actions
  simp only [List.map_cons, List.foldl_cons, hk v, hv v]
  rw [show add_to_groups [] k v = [(k, [v])] from rfl]
  rw [foldl_groups_single k f hk hv vs [v]]
  rfl

/-- C3 counterexample: a single self-action of the hinted type OCEAN_TRADE
with one short payload — the `|`-joined single-line rendering fits the
120-character budget (second conjunct), yet the code prints the option count,
the hint and one payload per line, refuting the claim that payload variants
are shown on one line whenever they fit, including for the hinted types. -/
theorem C3_counterexample :
    print_actions [JVal.arr [.str "RED", .str "OCEAN_TRADE",
        .arr [.str "KELP", .str "SHRIMP"]]] "RED" =
      ["\n--- Available Actions ---",
       "  OCEAN_TRADE (1 options):",
       "    (" ++ (hint_for (.str "OCEAN_TRADE")).getD "" ++ ")",
       "    [\"KELP\",\"SHRIMP\"]"] ∧
    "[\"KELP\",\"SHRIMP\"]".length + "OCEAN_TRADE".length + 4 ≤ 120 := by
  exact ⟨rfl, by decide⟩

/-- C3 amended: for a group of self-actions of one type whose payloads are not
all absent, every payload is rendered by compact JSON; a type **without** a
usage hint gets the `|`-joined single line iff it fits the 120-character
budget (type name included) and the count plus one payload per line otherwise,
while a type **with** a usage hint always gets the count line, the hint and
one payload per line, regardless of width. -/
theorem C3_group_rendering (t my : String) (vs : List JVal)
    (hnn : ∃ v ∈ vs, v ≠ JVal.null) :
    print_actions (vs.map (fun v => JVal.arr [.str my, .str t, v])) my =
      "\n--- Available Actions ---" :: render_group (.str t) vs ∧
    (hint_for (.str t) = none →
      (String.intercalate " | " (vs.map jsonDumps)).length + t.length + 4 ≤ 120 →
        render_group (.str t) vs =
          ["  " ++ t ++ ": " ++ String.intercalate " | " (vs.map jsonDumps)]) ∧
    (hint_for (.str t) = none →
      ¬ (String.intercalate " | " (vs.map jsonDumps)).length + t.length + 4 ≤ 120 →
        render_group (.str t) vs =
          ("  " ++ t ++ " (" ++ toString vs.length ++ " options):")
            :: (vs.map jsonDumps).map (fun f => "    " ++ f)) ∧
    (∀ h, hint_for (.str t) = some h →
      render_group (.str t) vs =
        ("  " ++ t ++ " (" ++ toString vs.length ++ " options):")
          :: ("    (" ++ h ++ ")")
          :: (vs.map jsonDumps).map (fun f => "    " ++ f)) := by
  obtain ⟨v0, hv0mem, hv0⟩ := hnn
  have hvs : vs ≠ [] := by rintro rfl; exact absurd hv0mem (by simp)
  have hfilter : (vs.map (fun v => JVal.arr [.str my, .str t, v])).filter
      (fun a => !(is_other_action my a)) =
      vs.map (fun v => JVal.arr [.str my, .str t, v]) := by
    rw [List.filter_eq_self]
    intro a ha
    obtain ⟨w, hw, rfl⟩ := List.mem_map.mp ha
    simp [self_actions_not_other]
  have hother : other_colors_of my (vs.map (fun v => JVal.arr [.str my, .str t, v])) = [] := by
    unfold other_colors_of
    have hnilf : (vs.map (fun v => JVal.arr [.str my, .str t, v])).filter
        (is_other_action my) = [] := by
      rw [List.filter_eq_nil_iff]
      intro a ha
      obtain ⟨w, hw, rfl⟩ := List.mem_map.mp ha
      simp [self_actions_not_other]
    rw [hnilf]
    rfl
  have hall_false : vs.all (fun v => v = JVal.null) = false := by
    rw [List.all_eq_false]
    exact ⟨v0, hv0mem, by simp [hv0]⟩
  have hgroup : group_actions (vs.map (fun v => JVal.arr [.str my, .str t, v])) =
      [(.str t, vs)] := by
    cases vs with
    | nil => exact absurd rfl hvs
    | cons v vs' =>
      exact group_actions_single (.str t) (fun v => JVal.arr [.str my, .str t, v])
        (fun w => rfl) (fun w => rfl) v vs'
  refine ⟨?_, fun hhint hfit => ?_, fun hhint hfit => ?_, fun h hhint => ?_⟩
  · simp only [print_actions, hfilter, hother, hgroup]
    rw [if_neg (by simp)]
    simp
  · simp only [render_group, hall_false, Bool.false_eq_true, if_false, hhint, pyStr]
    rw [if_pos hfit]
  · simp only [render_group, hall_false, Bool.false_eq_true, if_false, hhint, pyStr]
    rw [if_neg hfit]
  · simp only [render_group, hall_false, Bool.false_eq_true, if_false, hhint, pyStr]

theorem C3_witness :
    print_actions [JVal.arr [.str "RED", .str "BUILD_TIDE_POOL", .int 12]] "RED" =
      ["\n--- Available Actions ---", "  BUILD_TIDE_POOL: 12"] := by
  have h := C3_group_rendering "BUILD_TIDE_POOL" "RED" [JVal.int 12]
    ⟨JVal.int 12, by simp, by simp⟩
  have h1 := h.1
  have h2 := h.2.1 rfl (by decide)
  rw [h2] at h1
  exact h1.trans rfl

theorem jval_str_eq_some {c : JVal} {s : String} : jval_str c = some s ↔ c = .str s := by
  cases c <;> simp [jval_str]

/-- C9: when every legal action belongs to another color (none stays in
`my_actions`) and the list is nonempty, the output is the section header and
the single waiting line — no action group is rendered — and the colors listed
are sorted, duplicate-free, and exactly the color slots of the skipped
actions. -/
theorem C9_waiting_on_others (actions : List JVal) (my_color : String)
    (hall : ∀ a ∈ actions, is_other_action my_color a = true)
    (hne : actions ≠ []) :
    print_actions actions my_color =
      ["\n--- Available Actions ---",
       "  (none for you -- waiting on: "
         ++ String.intercalate ", " (sorted_color_strings (other_colors_of my_color actions))
         ++ ")"] ∧
    (sorted_color_strings (other_colors_of my_color actions)).Sorted (· ≤ ·) ∧
    (sorted_color_strings (other_colors_of my_color actions)).Nodup ∧
    (∀ s : String, s ∈ sorted_color_strings (other_colors_of my_color actions) ↔
      ∃ a ∈ actions, is_other_action my_color a = true ∧ other_color_of a = .str s) := by
  have hfilter : actions.filter (fun a => !(is_other_action my_color a)) = [] := by
    rw [List.filter_eq_nil_iff]
    intro a ha
    simp [hall a ha]
  have hkeep : actions.filter (is_other_action my_color) = actions :=
    List.filter_eq_self.mpr (fun a ha => hall a ha)
  have hother_ne : other_colors_of my_color actions ≠ [] := by
    unfold other_colors_of
    rw [hkeep]
    intro hcon
    rw [List.dedup_eq_nil, List.map_eq_nil_iff] at hcon
    exact hne hcon
  have hinj : ∀ (a a' : JVal), ∀ b ∈ jval_str a, b ∈ jval_str a' → a = a' := by
    intro a a' b hb hb'
    rw [Option.mem_def, jval_str_eq_some] at hb hb'
    rw [hb, hb']
  refine ⟨?_, ?_, ?_, ?_⟩
  · simp only [print_actions, hfilter]
    rw [if_pos ⟨by simp, by simpa [List.isEmpty_iff] using hother_ne⟩]
  · exact List.sorted_insertionSort _ _
  · unfold sorted_color_strings
    rw [(List.perm_insertionSort _ _).nodup_iff]
    exact List.Nodup.filterMap hinj (List.nodup_dedup _)
  · intro s
    unfold sorted_color_strings other_colors_of
    rw [List.mem_insertionSort]
    simp only [List.mem_filterMap, List.mem_dedup, List.mem_map, List.mem_filter,
      jval_str_eq_some]
    constructor
    · rintro ⟨c, ⟨a, ⟨hmem, hoth⟩, rfl⟩, hs⟩
      exact ⟨a, hmem, hoth, hs⟩
    · rintro ⟨a, hmem, hoth, hs⟩
      exact ⟨other_color_of a, ⟨a, ⟨hmem, hoth⟩, rfl⟩, hs⟩

theorem C9_witness :
    print_actions [JVal.arr [.str "BLUE", .str "BUILD_TIDE_POOL", .int 12]] "RED" =
      ["\n--- Available Actions ---", "  (none for you -- waiting on: BLUE)"] := by
  have h := (C9_waiting_on_others [JVal.arr [.str "BLUE", .str "BUILD_TIDE_POOL", .int 12]]
    "RED" (by intro a ha; fin_cases ha; rfl) (by simp)).1
  exact h.trans rfl

end Clawtan
